import Mathlib

/-!
Shallow embedding of `src/named_pixel_mapper.rs` from the rpi_led_panel
repository, together with theorems that settle the specification claims
about its pixel-mapping strategies.

Modelling conventions:
- Rust `usize` values are modelled as `Nat`.
- Rust `usize` subtraction panics on underflow (debug builds), and Rust
  division/remainder panic on a zero divisor; every function that can panic
  is therefore modelled with an `Option` result, where `none` stands for a
  panic. Subtractions and divisions that cannot fail are left as plain
  `Nat` operations.
- `eprintln!` (the non-fatal diagnostic of the U-arrangement size mapping)
  is modelled as a `Bool` flag in the result, `true` when the diagnostic
  would be emitted.
- `panic!` in `UArrangeMapper::new_with_parameters` is modelled as `none`;
  a successful construction returns the stored `parallel` field.
- Error messages are simplified to brace- and quote-free text; the claims
  depend only on which error branch is taken, not on the exact message.
-/

namespace RpiLedPanel

/-- The `NamedPixelMapperType` enum: `Mirror(bool)` (true = horizontal),
`Rotate(usize)`, `UMapper`. -/
inductive NamedPixelMapperType where
  | Mirror : Bool → NamedPixelMapperType
  | Rotate : Nat → NamedPixelMapperType
  | UMapper : NamedPixelMapperType
deriving DecidableEq, Repr

/-- Rust `str::split_once(':')` on a character list: splits at the first
colon, returning the parts before and after it, or `none` if there is no
colon. -/
def splitOnceColon : List Char → Option (List Char × List Char)
  | [] => none
  | c :: rest =>
    if c = ':' then some ([], rest)
    else
      match splitOnceColon rest with
      | none => none
      | some (a, b) => some (c :: a, b)

/-- Rust `str::parse::<usize>()`: an optional leading plus sign, then one or
more ASCII digits, with the value required to fit in 64 bits. -/
def parseUsize (cs : List Char) : Option Nat :=
  match cs with
  | [] => none
  | c :: rest =>
    let digits := if c = '+' then rest else cs
    if digits = [] then none
    else if digits.all (fun d => d.isDigit) then
      let v := digits.foldl (fun acc d => acc * 10 + (d.toNat - 48)) 0
      if v < 2 ^ 64 then some v else none
    else none

/-- `impl FromStr for NamedPixelMapperType`: parses one configuration token
into a mapper descriptor or an error message. -/
def from_str (s : String) : Except String NamedPixelMapperType :=
  match splitOnceColon s.data with
  | some (command, param) =>
    if command = "Mirror".data then
      if param = "H".data ∨ param = "h".data then
        Except.ok (NamedPixelMapperType.Mirror true)
      else if param = "V".data ∨ param = "v".data then
        Except.ok (NamedPixelMapperType.Mirror false)
      else
        Except.error (String.mk param ++
          " is not valid. Mirror parameter should be either V or H")
    else if command = "Rotate".data then
      match parseUsize param with
      | some angle =>
        if angle % 90 ≠ 0 then
          Except.error (Nat.repr angle ++
            " is not valid. Rotation needs to be a multiple of 90 degrees")
        else
          Except.ok (NamedPixelMapperType.Rotate ((angle + 360) % 360))
      | none => Except.error "Rotation angle is missing or invalid"
    else
      Except.error (String.mk command ++ " is not a valid Pixel mapping.")
  | none =>
    if s = "U-mapper" then Except.ok NamedPixelMapperType.UMapper
    else Except.error (s ++ " is not a valid Pixel mapping.")

namespace MirrorPixelMapper

/-- `MirrorPixelMapper::get_size_mapping`: the identity on the matrix size. -/
def get_size_mapping (matrix_width matrix_height : Nat) : Nat × Nat :=
  (matrix_width, matrix_height)

/-- `MirrorPixelMapper::map_visible_to_matrix`: mirrors horizontally
(`horizontal = true`) or vertically. `matrix_width - 1 - x` underflows
exactly when `x ≥ matrix_width` (similarly for the vertical case), which is
modelled as `none`. -/
def map_visible_to_matrix (horizontal : Bool) (matrix_width matrix_height x y : Nat) :
    Option (Nat × Nat) :=
  if horizontal then
    if x < matrix_width then some (matrix_width - 1 - x, y) else none
  else
    if y < matrix_height then some (x, matrix_height - 1 - y) else none

end MirrorPixelMapper

namespace RotatePixelMapper

/-- `RotatePixelMapper::get_size_mapping`: identity when `angle % 180 == 0`,
otherwise swaps width and height. -/
def get_size_mapping (angle matrix_width matrix_height : Nat) : Nat × Nat :=
  if angle % 180 = 0 then (matrix_width, matrix_height)
  else (matrix_height, matrix_width)

/-- `RotatePixelMapper::map_visible_to_matrix`: rotation by 0, 90, 180 or
270 degrees; any other angle hits `unreachable!()`, modelled as `none`, and
each usize subtraction is guarded against underflow. -/
def map_visible_to_matrix (angle matrix_width matrix_height x y : Nat) :
    Option (Nat × Nat) :=
  if angle = 0 then some (x, y)
  else if angle = 90 then
    if y < matrix_width then some (matrix_width - y - 1, x) else none
  else if angle = 180 then
    if x < matrix_width ∧ y < matrix_height then
      some (matrix_width - x - 1, matrix_height - y - 1)
    else none
  else if angle = 270 then
    if x < matrix_height then some (y, matrix_height - x - 1) else none
  else none

end RotatePixelMapper

namespace UArrangeMapper

/-- `UArrangeMapper::new_with_parameters`: panics (`none`) when the chain
length is below 2 or odd, otherwise stores `parallel`. -/
def new_with_parameters (chain parallel : Nat) : Option Nat :=
  if chain < 2 then none
  else if chain % 2 ≠ 0 then none
  else some parallel

/-- `UArrangeMapper::get_size_mapping`: visible width is
`(matrix_width / 64) * 32`, visible height is `2 * matrix_height`; the
`Bool` records whether the non-fatal diagnostic (`matrix_height` not
divisible by `parallel`) is emitted. `matrix_height % parallel` panics when
`parallel = 0`, modelled as `none`. -/
def get_size_mapping (parallel matrix_width matrix_height : Nat) :
    Option ((Nat × Nat) × Bool) :=
  if parallel = 0 then none
  else
    some ((matrix_width / 64 * 32, 2 * matrix_height),
      decide (matrix_height % parallel ≠ 0))

/-- `UArrangeMapper::map_visible_to_matrix`. Division by `parallel` panics
when `parallel = 0`; `y / slab_height` and `y % slab_height` panic when
`slab_height = 0`; in the folded (bottom-half) branch the code computes
`visible_width - x - 1` and `slab_height - y - 1` with the RAW `y` (not
`y % slab_height`), and each subtraction panics on underflow. All panics
are modelled as `none`. -/
def map_visible_to_matrix (parallel matrix_width matrix_height x y : Nat) :
    Option (Nat × Nat) :=
  if parallel = 0 then none
  else
    let panel_height := matrix_height / parallel
    let visible_width := matrix_width / 64 * 32
    let slab_height := 2 * panel_height
    if slab_height = 0 then none
    else
      let base_y := y / slab_height * panel_height
      let local_y := y % slab_height
      if local_y < panel_height then
        some (x + matrix_width / 2, base_y + local_y)
      else
        if x < visible_width ∧ y < slab_height then
          some (visible_width - x - 1, base_y + (slab_height - y - 1))
        else none

end UArrangeMapper

end RpiLedPanel

namespace RpiLedPanel

/-! Helper lemmas shared by the claim theorems. -/

theorem option_some_bind {α β : Type} (a : α) (f : α → Option β) :
    (Option.some a).bind f = f a := rfl

theorem mirror_h_eq (w h x y : Nat) (hx : x < w) :
    MirrorPixelMapper.map_visible_to_matrix true w h x y = some (w - 1 - x, y) := by
  simp [MirrorPixelMapper.map_visible_to_matrix, hx]

theorem mirror_v_eq (w h x y : Nat) (hy : y < h) :
    MirrorPixelMapper.map_visible_to_matrix false w h x y = some (x, h - 1 - y) := by
  simp [MirrorPixelMapper.map_visible_to_matrix, hy]

theorem rot90_eq (w h x y : Nat) (hy : y < w) :
    RotatePixelMapper.map_visible_to_matrix 90 w h x y = some (w - y - 1, x) := by
  simp [RotatePixelMapper.map_visible_to_matrix, hy]

theorem umapper_p1_eq (w h x y : Nat) (hx : x < w / 64 * 32) (hy : y < 2 * h) :
    UArrangeMapper.map_visible_to_matrix 1 w h x y =
      if y < h then some (x + w / 2, y)
      else some (w / 64 * 32 - x - 1, 2 * h - y - 1) := by
  simp only [UArrangeMapper.map_visible_to_matrix, Nat.div_one]
  rw [if_neg (by omega), if_neg (by omega)]
  rw [Nat.div_eq_of_lt hy, Nat.mod_eq_of_lt hy]
  split_ifs with hc hc2
  · simp
  · simp
  · exact absurd ⟨hx, hy⟩ hc2

/-! The claim theorems. -/

/-- C1: the claim says every strategy's `map_visible_to_matrix` is total and
in-range over in-range visible input. The code violates this: for the
U-arrangement with `parallel = 2`, `matrix_width = 64`, `matrix_height = 2`,
the visible size is `(32, 4)`, the coordinate `(0, 3)` is in range, yet the
mapping computes `slab_height - y - 1 = 2 - 3 - 1` with the raw `y` and
underflows (panics). -/
theorem umapper_second_slab_underflow :
    UArrangeMapper.get_size_mapping 2 64 2 = some ((32, 4), false)
    ∧ (0 < 32 ∧ 3 < 4)
    ∧ UArrangeMapper.map_visible_to_matrix 2 64 2 0 3 = none := by
  exact ⟨by decide, by decide, by decide⟩

/-- C2 counterexample: at `parallel = 2`, `matrix_width = 64`,
`matrix_height = 2`, the visible coordinate `(0, 3)` is in range
(`visibleWidth = 32`, `visibleHeight = 4`), yet `map_visible_to_matrix`
does not return the claimed pair: it underflows and panics (`none`). -/
theorem umapper_raw_y_formula_cex :
    (0 < 64 / 64 * 32 ∧ 3 < 2 * 2)
    ∧ UArrangeMapper.map_visible_to_matrix 2 64 2 0 3 = none := by
  exact ⟨by decide, by decide⟩

/-- C2 (amended): the claimed branch formulas hold provided
`visibleY < slabHeight` (always the case when `parallel_count = 1`, since
then `visibleHeight = slabHeight`); and with `matrixHeight = 64`,
`parallel = 1`, the visible point `(0, 0)` maps to `(matrixWidth / 2, 0)`. -/
theorem umapper_map_formula (parallel w h x y : Nat)
    (hp : 0 < parallel)
    (hx : x < w / 64 * 32)
    (hy : y < 2 * (h / parallel)) :
    (UArrangeMapper.map_visible_to_matrix parallel w h x y =
      if y % (2 * (h / parallel)) < h / parallel then
        some (x + w / 2,
          y / (2 * (h / parallel)) * (h / parallel) + y % (2 * (h / parallel)))
      else
        some (w / 64 * 32 - x - 1,
          y / (2 * (h / parallel)) * (h / parallel) + (2 * (h / parallel) - y - 1)))
    ∧ ∀ w2 : Nat, UArrangeMapper.map_visible_to_matrix 1 w2 64 0 0 = some (w2 / 2, 0) := by
  constructor
  · simp only [UArrangeMapper.map_visible_to_matrix]
    rw [if_neg (by omega)]
    generalize h / parallel = q at hy ⊢
    rw [if_neg (by omega)]
    split_ifs with hc hc2
    · rfl
    · rfl
    · exact absurd ⟨hx, hy⟩ hc2
  · intro w2
    simp [UArrangeMapper.map_visible_to_matrix]

/-- C2 witness: a concrete bottom-half point under `parallel = 1`,
`matrix_width = 128`, `matrix_height = 64`: visible `(0, 70)` maps to
`(63, 57)`. -/
theorem umapper_map_formula_witness :
    UArrangeMapper.map_visible_to_matrix 1 128 64 0 70 = some (63, 57) := by
  rw [(umapper_map_formula 1 128 64 0 70 (by decide) (by decide) (by decide)).1]
  decide

/-- C3 counterexample: the claim says parsing `"Rotate:450"` is an error,
but 450 is a multiple of 90 (450 = 5 * 90), so the parser accepts it and
normalizes the angle to 90. -/
theorem rotate450_cex :
    from_str "Rotate:450" = Except.ok (NamedPixelMapperType.Rotate 90) := rfl

/-- C3 (amended): parsing `"Rotate:450"` succeeds — 450 passes the
multiple-of-90 check, and the angle is normalized via `(450 + 360) % 360`
to 90. -/
theorem rotate450_parses_normalized :
    from_str "Rotate:450" = Except.ok (NamedPixelMapperType.Rotate ((450 + 360) % 360))
    ∧ (450 + 360) % 360 = 90 ∧ 450 % 90 = 0 := ⟨rfl, rfl, rfl⟩

/-- C4: U-arrangement construction fails (panics) exactly when the chain
length is below 2 or odd; in particular chains 1 and 3 fail and chain 4
succeeds. -/
theorem uarrange_construction_iff :
    (∀ chain parallel : Nat,
      UArrangeMapper.new_with_parameters chain parallel = none ↔
        chain < 2 ∨ chain % 2 = 1)
    ∧ UArrangeMapper.new_with_parameters 1 1 = none
    ∧ UArrangeMapper.new_with_parameters 3 1 = none
    ∧ UArrangeMapper.new_with_parameters 4 1 = some 1 := by
  refine ⟨fun chain parallel => ?_, by decide, by decide, by decide⟩
  unfold UArrangeMapper.new_with_parameters
  split_ifs with h1 h2 <;> simp <;> omega

/-- C5: for positive `parallel`, the U-arrangement size mapping always
returns `((matrixWidth / 64) * 32, 2 * matrixHeight)`, with the non-fatal
diagnostic flag set exactly when `matrixHeight` is not divisible by
`parallel`; in particular `(128, 64)` with `parallel = 1` yields
`(64, 128)` and no diagnostic. -/
theorem uarrange_size_mapping_spec :
    (∀ parallel w h : Nat, 0 < parallel →
      UArrangeMapper.get_size_mapping parallel w h =
        some ((w / 64 * 32, 2 * h), decide (h % parallel ≠ 0)))
    ∧ UArrangeMapper.get_size_mapping 1 128 64 = some ((64, 128), false) := by
  refine ⟨fun parallel w h hp => ?_, by decide⟩
  unfold UArrangeMapper.get_size_mapping
  rw [if_neg (by omega)]

/-- C5 witness: `parallel = 3`, `matrix = (128, 65)`: size `(64, 130)` with
the diagnostic emitted (65 is not divisible by 3). -/
theorem uarrange_size_mapping_spec_witness :
    UArrangeMapper.get_size_mapping 3 128 65 = some ((64, 130), true) := by
  rw [uarrange_size_mapping_spec.1 3 128 65 (by decide)]
  decide

/-- C6: each mirror is an involution on in-range coordinates — applying the
same mirror twice returns the original point — and the mirror size mapping
is the identity. -/
theorem mirror_involution (horizontal : Bool) (w h x y : Nat)
    (hx : x < w) (hy : y < h) :
    (MirrorPixelMapper.map_visible_to_matrix horizontal w h x y).bind
      (fun p => MirrorPixelMapper.map_visible_to_matrix horizontal w h p.1 p.2)
      = some (x, y)
    ∧ MirrorPixelMapper.get_size_mapping w h = (w, h) := by
  refine ⟨?_, rfl⟩
  cases horizontal
  · rw [mirror_v_eq w h x y hy, option_some_bind]
    rw [mirror_v_eq w h x (h - 1 - y) (by omega)]
    have hyy : h - 1 - (h - 1 - y) = y := by omega
    rw [hyy]
  · rw [mirror_h_eq w h x y hx, option_some_bind]
    rw [mirror_h_eq w h (w - 1 - x) y (by omega)]
    have hxx : w - 1 - (w - 1 - x) = x := by omega
    rw [hxx]

/-- C6 witness: horizontal mirror applied twice at `(1, 0)` on a 3 by 2
matrix returns `(1, 0)`. -/
theorem mirror_involution_witness :
    (MirrorPixelMapper.map_visible_to_matrix true 3 2 1 0).bind
      (fun p => MirrorPixelMapper.map_visible_to_matrix true 3 2 p.1 p.2)
      = some (1, 0) :=
  (mirror_involution true 3 2 1 0 (by decide) (by decide)).1

/-- C7: rotating by 90 four times — each stage taking as matrix dimensions
the visible dimensions of the previous stage — returns the original
coordinate; applying the 90-degree size mapping four times returns the
original size; and rotation by 0 is the identity for both operations. -/
theorem rotate_four_times (w h x y : Nat) (hx : x < h) (hy : y < w) :
    ((RotatePixelMapper.map_visible_to_matrix 90 w h x y).bind fun p =>
      (RotatePixelMapper.map_visible_to_matrix 90 h w p.1 p.2).bind fun q =>
        (RotatePixelMapper.map_visible_to_matrix 90 w h q.1 q.2).bind fun r =>
          RotatePixelMapper.map_visible_to_matrix 90 h w r.1 r.2) = some (x, y)
    ∧ (let s1 := RotatePixelMapper.get_size_mapping 90 w h
       let s2 := RotatePixelMapper.get_size_mapping 90 s1.1 s1.2
       let s3 := RotatePixelMapper.get_size_mapping 90 s2.1 s2.2
       RotatePixelMapper.get_size_mapping 90 s3.1 s3.2) = (w, h)
    ∧ RotatePixelMapper.get_size_mapping 0 w h = (w, h)
    ∧ RotatePixelMapper.map_visible_to_matrix 0 w h x y = some (x, y) := by
  refine ⟨?_, by simp [RotatePixelMapper.get_size_mapping],
    by simp [RotatePixelMapper.get_size_mapping],
    by simp [RotatePixelMapper.map_visible_to_matrix]⟩
  rw [rot90_eq w h x y hy, option_some_bind]
  rw [rot90_eq h w (w - y - 1) x hx, option_some_bind]
  rw [rot90_eq w h (h - x - 1) (w - y - 1) (by omega), option_some_bind]
  have e1 : w - (w - y - 1) - 1 = y := by omega
  rw [e1]
  rw [rot90_eq h w y (h - x - 1) (by omega)]
  have e2 : h - (h - x - 1) - 1 = x := by omega
  rw [e2]

/-- C7 witness: on a 4 by 3 matrix, the visible point `(1, 2)` returns to
`(1, 2)` after four chained 90-degree rotations. -/
theorem rotate_four_times_witness :
    ((RotatePixelMapper.map_visible_to_matrix 90 4 3 1 2).bind fun p =>
      (RotatePixelMapper.map_visible_to_matrix 90 3 4 p.1 p.2).bind fun q =>
        (RotatePixelMapper.map_visible_to_matrix 90 4 3 q.1 q.2).bind fun r =>
          RotatePixelMapper.map_visible_to_matrix 90 3 4 r.1 r.2) = some (1, 2) :=
  (rotate_four_times 4 3 1 2 (by decide) (by decide)).1

/-- C8: the rotate size mapping swaps width and height for angles 90 and
270 and is the identity for angles 0 and 180. -/
theorem rotate_size_swap (w h : Nat) :
    RotatePixelMapper.get_size_mapping 90 w h = (h, w)
    ∧ RotatePixelMapper.get_size_mapping 270 w h = (h, w)
    ∧ RotatePixelMapper.get_size_mapping 0 w h = (w, h)
    ∧ RotatePixelMapper.get_size_mapping 180 w h = (w, h) := by
  refine ⟨?_, ?_, ?_, ?_⟩ <;> simp [RotatePixelMapper.get_size_mapping]

/-- C9: the parsing example table — `"Mirror:H"` is the horizontal mirror,
`"Mirror:v"` the vertical mirror, `"Rotate:90"` angle 90, `"Rotate:0"`
angle 0, `"U-mapper"` the U-fold descriptor, and `"bogus"` and
`"Rotate:abc"` are parse errors. -/
theorem parse_examples :
    from_str "Mirror:H" = Except.ok (NamedPixelMapperType.Mirror true)
    ∧ from_str "Mirror:v" = Except.ok (NamedPixelMapperType.Mirror false)
    ∧ from_str "Rotate:90" = Except.ok (NamedPixelMapperType.Rotate 90)
    ∧ from_str "Rotate:0" = Except.ok (NamedPixelMapperType.Rotate 0)
    ∧ from_str "U-mapper" = Except.ok NamedPixelMapperType.UMapper
    ∧ (∃ e, from_str "bogus" = Except.error e)
    ∧ (∃ e, from_str "Rotate:abc" = Except.error e) :=
  ⟨rfl, rfl, rfl, rfl, rfl, ⟨_, rfl⟩, ⟨_, rfl⟩⟩

/-- C10: with `parallel = 1` and `matrix_width` a positive multiple of 64,
the U-arrangement coordinate mapping is injective on its visible domain:
distinct in-range visible points map to distinct results. -/
theorem umapper_injective_parallel_one (w h x₁ y₁ x₂ y₂ : Nat)
    (hw64 : w % 64 = 0) (hw : 0 < w)
    (hx₁ : x₁ < w / 64 * 32) (hy₁ : y₁ < 2 * h)
    (hx₂ : x₂ < w / 64 * 32) (hy₂ : y₂ < 2 * h)
    (hne : (x₁, y₁) ≠ (x₂, y₂)) :
    UArrangeMapper.map_visible_to_matrix 1 w h x₁ y₁ ≠
      UArrangeMapper.map_visible_to_matrix 1 w h x₂ y₂ := by
  rw [umapper_p1_eq w h x₁ y₁ hx₁ hy₁, umapper_p1_eq w h x₂ y₂ hx₂ hy₂]
  simp only [Ne, Prod.mk.injEq, not_and] at hne
  split_ifs <;> simp only [Ne, Option.some.injEq, Prod.mk.injEq, not_and] <;> omega

/-- C10 witness: on a 64 by 64 matrix the distinct visible points `(0, 0)`
and `(1, 0)` map to distinct matrix points. -/
theorem umapper_injective_parallel_one_witness :
    UArrangeMapper.map_visible_to_matrix 1 64 64 0 0 ≠
      UArrangeMapper.map_visible_to_matrix 1 64 64 1 0 :=
  umapper_injective_parallel_one 64 64 0 0 1 0 (by decide) (by decide)
    (by decide) (by decide) (by decide) (by decide) (by decide)

end RpiLedPanel
